import Mathlib

/-! The program example-poll-with-eventfd: a shallow embedding of `src/main.cpp`.

Every thread of the program (the main thread, the signal-handler thread and the
two senders) is embedded as a function from the results of the system calls it
makes (an oracle, consumed in program order) to the sequence of actions it
performs and the way it ends.  A thread whose oracle runs out is reported as
still running: nothing is concluded from it about termination.
-/

namespace EventfdPoll

/-! ## Platform constants used by the source but declared in system headers -/

/-- A signal set (`sigset_t`), as the set of signal numbers it holds. -/
abbrev SigSet := Finset Int

/-- The constants of `<csignal>`, `<cstdlib>` and `<poll.h>` that `main.cpp` names, and the
set `sigfillset` produces.  They are not declared in the repository, so they are
parameters of the embedding. -/
structure Platform where
  SIGINT : Int
  SIGTSTP : Int
  SIGTERM : Int
  SIGABRT : Int
  SIGBUS : Int
  SIGFPE : Int
  SIGILL : Int
  SIGSEGV : Int
  EXIT_FAILURE : Int
  POLLIN : Nat
  allSignals : SigSet

/-- The values of Linux on x86 and ARM (`asm-generic/signal.h`, `stdlib.h`, `poll.h`). -/
def linux : Platform where
  SIGINT := 2
  SIGTSTP := 20
  SIGTERM := 15
  SIGABRT := 6
  SIGBUS := 7
  SIGFPE := 8
  SIGILL := 4
  SIGSEGV := 11
  EXIT_FAILURE := 1
  POLLIN := 1
  allSignals := Finset.Icc 1 64

/-- The five fault signals of the comment at `main.cpp:24`. -/
def Platform.faultSignals (P : Platform) : SigSet :=
  {P.SIGABRT, P.SIGBUS, P.SIGFPE, P.SIGILL, P.SIGSEGV}

/-- The three signals the watcher thread adds to its wait set. -/
def Platform.shutdownSignals (P : Platform) : SigSet :=
  {P.SIGINT, P.SIGTSTP, P.SIGTERM}

/-- What POSIX promises about the constants: signal numbers are positive, the three
shutdown signals are signals of the platform and none of them is a fault signal,
and `EXIT_FAILURE` is not the success status. -/
def Platform.WellFormed (P : Platform) : Prop :=
  0 < P.SIGINT ∧ 0 < P.SIGTSTP ∧ 0 < P.SIGTERM ∧
  P.SIGINT ∈ P.allSignals ∧ P.SIGTSTP ∈ P.allSignals ∧ P.SIGTERM ∈ P.allSignals ∧
  P.SIGINT ∉ P.faultSignals ∧ P.SIGTSTP ∉ P.faultSignals ∧ P.SIGTERM ∉ P.faultSignals ∧
  P.EXIT_FAILURE ≠ 0

/-! ## Actions -/

/-- The threads the program spawns. -/
inductive Thread
  | signalHandler
  | sender1
  | sender2
  deriving DecidableEq, Repr

/-- The fixed lines the program prints. -/
inductive Msg
  /-- Prints "Set up signal handler..." -/
  | setUp
  /-- Prints "Setting up signal handler failed" -/
  | setUpFailed
  /-- Prints "Empty signal set failed" -/
  | emptyFailed
  /-- Prints "Add SIGINT failed" -/
  | addSIGINTFailed
  /-- Prints "Add SIGTSTP failed" -/
  | addSIGTSTPFailed
  /-- Prints "Add SIGTERM failed" -/
  | addSIGTERMFailed
  /-- Prints "About to poll..." -/
  | aboutToPoll
  /-- Prints "Poll error!" -/
  | pollError
  /-- Prints "Read error!" -/
  | readError
  deriving DecidableEq, Repr

/-- One observable step of a thread.  Event sources are named by their index:
`0` is `eventFd1` (`pfds[0].fd`), `1` is `eventFd2` (`pfds[1].fd`). -/
inductive Action
  | log (m : Msg)
  /-- Prints "Received from Sender " followed by the 8 bytes read -/
  | logReceived (payload : Nat)
  /-- Prints "pthread_kill return: " followed by `strerror(ret)` -/
  | logKill (ret : Int)
  | sigfillset (ret : Int)
  | sigdelset (sig : Int) (ret : Int)
  | pthread_sigmask (mask : SigSet) (ret : Int)
  | spawn (t : Thread)
  | setname
  | sigemptyset (ret : Int)
  | sigaddset (sig : Int) (ret : Int)
  /-- a `sigwait` call that returned; `delivered` is what it stored in `sig`, if anything -/
  | sigwait (set : SigSet) (delivered : Option Int)
  /-- a read of `exitRequested` that saw `b` -/
  | loadFlag (b : Bool)
  /-- a write of `b` to `exitRequested` -/
  | storeFlag (b : Bool)
  | eventfd (src : Nat)
  | write (src : Nat) (value : Nat) (ret : Int)
  | sleep (ms : Nat)
  | poll (timeoutMs : Nat) (ret : Int)
  | read (src : Nat) (ret : Int)
  | join (t : Thread)
  | pthread_kill (t : Thread) (sig : Int) (ret : Int)
  | close (src : Nat)
  | exit (code : Int)
  | ret (code : Int)
  deriving DecidableEq

/-- How the modelled part of a thread ended. -/
inductive Outcome
  /-- the oracle ran out: the thread is still in its loop (or blocked in a call) -/
  | running
  /-- The call `exit(code)` was made: the whole process is gone -/
  | exited (code : Int)
  /-- a spawned thread ran its function to the end -/
  | finished
  /-- The function `main` returned `code` -/
  | returned (code : Int)
  deriving DecidableEq, Repr

/-! ## The signal-handler thread (`main.cpp:42-77`) -/

/-- The condition of the `while` at `main.cpp:72`, negated: the loop stops on it. -/
def isShutdownSignal (P : Platform) (sig : Int) : Bool :=
  sig == P.SIGINT || sig == P.SIGTSTP || sig == P.SIGTERM

/-- The loop `while (!(sig == SIGINT || sig == SIGTSTP || sig == SIGTERM)) sigwait(&signal_set, &sig);`
followed by `exitRequested = true`.  Each element of the oracle is one returned
`sigwait`: `some n` stored `n` in `sig`, `none` failed and left `sig` alone (the
return value is not looked at). -/
def watcherLoop (P : Platform) (set : SigSet) : Int → List (Option Int) → List Action × Outcome
  | sig, [] =>
    if isShutdownSignal P sig then ([Action.storeFlag true], Outcome.finished)
    else ([], Outcome.running)
  | sig, d :: ds =>
    if isShutdownSignal P sig then ([Action.storeFlag true], Outcome.finished)
    else
      let r := watcherLoop P set (d.getD sig) ds
      (Action.sigwait set d :: r.1, r.2)

/-- The results the watcher thread gets from the system. -/
structure WatcherIn where
  rcEmpty : Int
  rcAddINT : Int
  rcAddTSTP : Int
  rcAddTERM : Int
  deliveries : List (Option Int)

/-- The lambda run by the signal-handler thread. -/
def signalHandlerThread (P : Platform) (w : WatcherIn) : List Action × Outcome :=
  let sig : Int := -1
  if w.rcEmpty ≠ 0 then
    ([Action.setname, Action.sigemptyset w.rcEmpty, Action.log Msg.emptyFailed,
      Action.exit P.EXIT_FAILURE], Outcome.exited P.EXIT_FAILURE)
  else
    let s0 : SigSet := ∅
    if w.rcAddINT ≠ 0 then
      ([Action.setname, Action.sigemptyset w.rcEmpty, Action.sigaddset P.SIGINT w.rcAddINT,
        Action.log Msg.addSIGINTFailed, Action.exit P.EXIT_FAILURE], Outcome.exited P.EXIT_FAILURE)
    else
      let s1 := insert P.SIGINT s0
      if w.rcAddTSTP ≠ 0 then
        ([Action.setname, Action.sigemptyset w.rcEmpty, Action.sigaddset P.SIGINT w.rcAddINT,
          Action.sigaddset P.SIGTSTP w.rcAddTSTP,
          Action.log Msg.addSIGTSTPFailed, Action.exit P.EXIT_FAILURE],
          Outcome.exited P.EXIT_FAILURE)
      else
        let s2 := insert P.SIGTSTP s1
        if w.rcAddTERM ≠ 0 then
          ([Action.setname, Action.sigemptyset w.rcEmpty, Action.sigaddset P.SIGINT w.rcAddINT,
            Action.sigaddset P.SIGTSTP w.rcAddTSTP, Action.sigaddset P.SIGTERM w.rcAddTERM,
            Action.log Msg.addSIGTERMFailed, Action.exit P.EXIT_FAILURE],
            Outcome.exited P.EXIT_FAILURE)
        else
          let s3 := insert P.SIGTERM s2
          let r := watcherLoop P s3 sig w.deliveries
          ([Action.setname, Action.sigemptyset w.rcEmpty, Action.sigaddset P.SIGINT w.rcAddINT,
            Action.sigaddset P.SIGTSTP w.rcAddTSTP, Action.sigaddset P.SIGTERM w.rcAddTERM]
            ++ r.1, r.2)

/-! ## Signal set-up and tear-down on the main thread (`main.cpp:17-96`) -/

/-- The results `initializeSignalHandler` gets from the system. -/
structure SetupIn where
  /-- the indeterminate initial content of `signal_set` -/
  uninit : SigSet
  rcFill : Int
  rcDelABRT : Int
  rcDelBUS : Int
  rcDelFPE : Int
  rcDelILL : Int
  rcDelSEGV : Int
  rcMask : Int

/-- The locals of `initializeSignalHandler` while the mask is built, and what was done so far. -/
structure SetupState where
  success : Bool
  signal_set : SigSet
  trace : List Action

/-- One line `success = success && (0 == call(&signal_set, ...))`: `&&` evaluates the call
only while `success` holds; a call that returns 0 has its effect `upd` on the set. -/
def SetupState.andCall (st : SetupState) (rc : Int) (act : SigSet → Action)
    (upd : SigSet → SigSet) : SetupState :=
  if st.success then
    { success := rc == 0
      signal_set := if rc == 0 then upd st.signal_set else st.signal_set
      trace := st.trace ++ [act st.signal_set] }
  else st

/-- A `std::thread` object, as far as `joinable()` goes. -/
structure ThreadHandle where
  thread : Thread
  joinable : Bool
  deriving DecidableEq, Repr

/-- The lines 19-33 of `initializeSignalHandler`: the mask is built and installed. -/
def buildMask (P : Platform) (s : SetupIn) : SetupState :=
  let st : SetupState :=
    { success := true, signal_set := s.uninit, trace := [Action.log Msg.setUp] }
  let st := st.andCall s.rcFill (fun _ => Action.sigfillset s.rcFill) (fun _ => P.allSignals)
  let st := st.andCall s.rcDelABRT (fun _ => Action.sigdelset P.SIGABRT s.rcDelABRT)
    (fun x => x.erase P.SIGABRT)
  let st := st.andCall s.rcDelBUS (fun _ => Action.sigdelset P.SIGBUS s.rcDelBUS)
    (fun x => x.erase P.SIGBUS)
  let st := st.andCall s.rcDelFPE (fun _ => Action.sigdelset P.SIGFPE s.rcDelFPE)
    (fun x => x.erase P.SIGFPE)
  let st := st.andCall s.rcDelILL (fun _ => Action.sigdelset P.SIGILL s.rcDelILL)
    (fun x => x.erase P.SIGILL)
  let st := st.andCall s.rcDelSEGV (fun _ => Action.sigdelset P.SIGSEGV s.rcDelSEGV)
    (fun x => x.erase P.SIGSEGV)
  st.andCall s.rcMask (fun x => Action.pthread_sigmask x s.rcMask) id

/-- The function `initializeSignalHandler`, on the calling thread: its actions, and the handle
of the spawned watcher thread, or `none` when it called `std::exit(EXIT_FAILURE)`. -/
def initializeSignalHandler (P : Platform) (s : SetupIn) : List Action × Option ThreadHandle :=
  let st := buildMask P s
  if !st.success then
    (st.trace ++ [Action.log Msg.setUpFailed, Action.exit P.EXIT_FAILURE], none)
  else
    (st.trace ++ [Action.spawn Thread.signalHandler],
      some { thread := Thread.signalHandler, joinable := true })

/-- The function `deinitializeSignalHandler`; `killRet` is what `pthread_kill` returns. -/
def deinitializeSignalHandler (P : Platform) (signalHandlerThread : ThreadHandle)
    (killRet : Int) : List Action :=
  if signalHandlerThread.joinable then
    [Action.pthread_kill signalHandlerThread.thread P.SIGINT killRet, Action.logKill killRet,
      Action.join signalHandlerThread.thread]
  else []

/-! ## The senders (`main.cpp:116-130`) -/

/-- The event source held in `eventFd1`. -/
def eventFd1 : Nat := 0

/-- The event source held in `eventFd2`. -/
def eventFd2 : Nat := 1

/-- The body shared by the two sender lambdas:
`while (!exitRequested) { write(fd, &tmp, sizeof(uint64_t)); sleep_for(period); }`.
Each oracle element is one pass: the value `exitRequested` has when the condition is
evaluated, and what `write` returns when the pass makes it. -/
def senderLoop (src tmp periodMs : Nat) : List (Bool × Int) → List Action × Outcome
  | [] => ([], Outcome.running)
  | (flag, wr) :: rest =>
    if flag then ([Action.loadFlag true], Outcome.finished)
    else
      let r := senderLoop src tmp periodMs rest
      (Action.loadFlag false :: Action.write src tmp wr :: Action.sleep periodMs :: r.1, r.2)

/-- The thread `sender1`: `tmp{1}`, `eventFd1`, 200 ms. -/
def sender1 (o : List (Bool × Int)) : List Action × Outcome := senderLoop eventFd1 1 200 o

/-- The thread `sender2`: `tmp{2}`, `eventFd2`, 500 ms. -/
def sender2 (o : List (Bool × Int)) : List Action × Outcome := senderLoop eventFd2 2 500 o

/-! ## The event loop and `main` (`main.cpp:98-163`) -/

/-- The fields of `struct pollfd`; `fd` is the index of the event source. -/
structure pollfd where
  fd : Nat
  events : Nat
  revents : Nat
  deriving DecidableEq, Repr

/-- The constant `nfds`. -/
def nfds : Nat := 2

/-- What one pass of the event loop gets from the system. -/
structure PollIn where
  /-- the value `exitRequested` has when the loop condition is evaluated -/
  exitRequested : Bool
  /-- what `poll` returns -/
  ready : Int
  /-- what `poll` stores in `pfds[i].revents` -/
  revents : Nat → Nat
  /-- what the `read` on `pfds[i].fd` returns and the 8 bytes it leaves in `buf`,
  used only if that read is made -/
  rd : Nat → Int × Nat

/-- The `for (int i = 0; i < nfds; ++i)` loop, over the indices still to visit.  The
boolean tells that `exit(1)` was called. -/
def readLoop (P : Platform) (pfds : Nat → pollfd) (rd : Nat → Int × Nat) :
    List Nat → List Action × Bool
  | [] => ([], false)
  | i :: is =>
    if (pfds i).revents &&& P.POLLIN ≠ 0 then
      if (rd i).1 = -1 then
        ([Action.read (pfds i).fd (rd i).1, Action.log Msg.readError, Action.exit 1], true)
      else
        let r := readLoop P pfds rd is
        (Action.read (pfds i).fd (rd i).1 :: Action.logReceived (rd i).2 :: r.1, r.2)
    else readLoop P pfds rd is

/-- How the event loop ended. -/
inductive LoopEnd
  /-- the oracle ran out: the loop is still going -/
  | running
  /-- The call `exit(code)` was made -/
  | exited (code : Int)
  /-- the condition `!exitRequested` was false: control goes on to the joins -/
  | left
  deriving DecidableEq, Repr

/-- The loop `while(!exitRequested) { ... }` of `main`. -/
def pollLoop (P : Platform) : (Nat → pollfd) → List PollIn → List Action × LoopEnd
  | _, [] => ([], LoopEnd.running)
  | pfds, it :: rest =>
    if it.exitRequested then ([Action.loadFlag true], LoopEnd.left)
    else if it.ready = -1 then
      ([Action.loadFlag false, Action.log Msg.aboutToPoll, Action.poll 500 it.ready,
        Action.log Msg.pollError, Action.exit 1], LoopEnd.exited 1)
    else
      let pfds1 : Nat → pollfd := fun i => { pfds i with revents := it.revents i }
      let r := readLoop P pfds1 it.rd (List.range nfds)
      if r.2 then
        (Action.loadFlag false :: Action.log Msg.aboutToPoll :: Action.poll 500 it.ready :: r.1,
          LoopEnd.exited 1)
      else
        let k := pollLoop P pfds1 rest
        (Action.loadFlag false :: Action.log Msg.aboutToPoll :: Action.poll 500 it.ready ::
          (r.1 ++ k.1), k.2)

/-- The array `pfds` as `main` sets it up (`main.cpp:105-114`). -/
def pfdsInit (P : Platform) : Nat → pollfd := fun i =>
  if i = 0 then { fd := eventFd1, events := P.POLLIN, revents := 0 }
  else if i = 1 then { fd := eventFd2, events := P.POLLIN, revents := 0 }
  else { fd := 0, events := 0, revents := 0 }

/-- The initial value of `exitRequested` (`std::atomic_bool exitRequested(false)`). -/
def exitRequestedInit : Bool := false

/-- The results `main` gets from the system. -/
structure MainIn where
  setup : SetupIn
  iters : List PollIn
  killRet : Int

/-- The lines 156-162 of `main`: what follows the event loop. -/
def teardown (P : Platform) (signalHandlerThread : ThreadHandle) (killRet : Int) : List Action :=
  [Action.join Thread.sender1, Action.join Thread.sender2]
    ++ deinitializeSignalHandler P signalHandlerThread killRet
    ++ [Action.close eventFd1, Action.close eventFd2, Action.ret 0]

/-- The function `main`, on the main thread. -/
def main (P : Platform) (m : MainIn) : List Action × Outcome :=
  let r := initializeSignalHandler P m.setup
  match r.2 with
  | none => (r.1, Outcome.exited P.EXIT_FAILURE)
  | some signalHandlerThread =>
    let t1 := r.1 ++ [Action.eventfd eventFd1, Action.eventfd eventFd2,
      Action.spawn Thread.sender1, Action.spawn Thread.sender2]
    let l := pollLoop P (pfdsInit P) m.iters
    match l.2 with
    | LoopEnd.running => (t1 ++ l.1, Outcome.running)
    | LoopEnd.exited c => (t1 ++ l.1, Outcome.exited c)
    | LoopEnd.left => (t1 ++ l.1 ++ teardown P signalHandlerThread m.killRet, Outcome.returned 0)

/-! ## The event sources as eventfd counters

The two event sources are created by `eventfd(0, EFD_NONBLOCK)`: a 64-bit counter that
starts at 0, without `EFD_SEMAPHORE`.  The kernel's side of `write`, `read` and `poll`
on such a descriptor follows eventfd(2). -/

/-- The largest value an eventfd counter holds (`0xfffffffffffffffe`). -/
def eventfdMax : Nat := 2 ^ 64 - 2

/-- The call `write(fd, &v, 8)` on a non-blocking eventfd with counter `c`: the new counter and
the return value (`-1`, `EAGAIN`, when the sum would pass the maximum). -/
def eventfdWrite (c v : Nat) : Nat × Int :=
  if c + v ≤ eventfdMax then (c + v, 8) else (c, -1)

/-- The call `read(fd, buf, 10)` on a non-blocking eventfd with counter `c`, no semaphore flag:
the new counter, the return value and the 8 bytes stored (`-1`, `EAGAIN`, on a zero counter). -/
def eventfdRead (c : Nat) : Nat × (Int × Nat) :=
  if c = 0 then (0, (-1, 0)) else (0, (8, c))

/-- The `revents` `poll` reports for an eventfd with counter `c` and interest `POLLIN`. -/
def eventfdRevents (P : Platform) (c : Nat) : Nat :=
  if 0 < c then P.POLLIN else 0

/-- One scheduling step of the running program, seen from the two event sources. -/
inductive Sched
  /-- The thread `sender1` makes one pass of its loop, the flag being false: it writes its `tmp` -/
  | sender1Pass
  /-- The thread `sender2` makes one pass of its loop, the flag being false: it writes its `tmp` -/
  | sender2Pass
  /-- the event loop makes one pass, the flag being false: it polls and reads -/
  | loopPass
  deriving DecidableEq, Repr

/-- The counters of the two event sources, `eventFd1` first. -/
structure Counters where
  c1 : Nat
  c2 : Nat
  deriving DecidableEq, Repr

/-- The counters right after the two `eventfd(0, EFD_NONBLOCK)` calls. -/
def countersInit : Counters := { c1 := 0, c2 := 0 }

/-- The counter of the event source with index `i`. -/
def Counters.get (c : Counters) (i : Nat) : Nat := if i = 0 then c.c1 else c.c2

/-- What the kernel hands to one pass of the event loop when the counters are `c` and no
sender runs during the pass. -/
def kernelPollIn (P : Platform) (c : Counters) : PollIn where
  exitRequested := false
  ready := (if 0 < c.c1 then 1 else 0) + (if 0 < c.c2 then 1 else 0)
  revents := fun i => eventfdRevents P (c.get i)
  rd := fun i => (eventfdRead (c.get i)).2

/-- The counters after one pass of the event loop: a source that was read is reset. -/
def countersAfterLoopPass (P : Platform) (c : Counters) : Counters where
  c1 := if eventfdRevents P c.c1 &&& P.POLLIN ≠ 0 then (eventfdRead c.c1).1 else c.c1
  c2 := if eventfdRevents P c.c2 &&& P.POLLIN ≠ 0 then (eventfdRead c.c2).1 else c.c2

/-- The program under a schedule: the actions of the three threads, interleaved as the
schedule says, starting from the counters `c`.  The senders' passes are those of
`sender1` and `sender2`, the loop's passes those of `pollLoop`. -/
def runSchedule (P : Platform) : Counters → List Sched → List Action
  | _, [] => []
  | c, Sched.sender1Pass :: rest =>
    let w := eventfdWrite c.c1 1
    (sender1 [(false, w.2)]).1 ++ runSchedule P { c with c1 := w.1 } rest
  | c, Sched.sender2Pass :: rest =>
    let w := eventfdWrite c.c2 2
    (sender2 [(false, w.2)]).1 ++ runSchedule P { c with c2 := w.1 } rest
  | c, Sched.loopPass :: rest =>
    (pollLoop P (pfdsInit P) [kernelPollIn P c]).1
      ++ runSchedule P (countersAfterLoopPass P c) rest

/-- The payloads the program logs as "Received from Sender ...", in order. -/
def receivedPayloads : List Action → List Nat
  | [] => []
  | Action.logReceived v :: rest => v :: receivedPayloads rest
  | _ :: rest => receivedPayloads rest

/-! ## The shutdown flag along a sequence of actions -/

/-- The value of `exitRequested` after one action, given its value before. -/
def flagStep (flag : Bool) : Action → Bool
  | Action.storeFlag b => b
  | _ => flag

/-- The value of `exitRequested` after a sequence of actions. -/
def flagAfter (flag : Bool) (steps : List Action) : Bool :=
  steps.foldl flagStep flag

/-- An action some thread of the program performs, for some results of its system calls. -/
def Performed (P : Platform) (a : Action) : Prop :=
  (∃ m, a ∈ (main P m).1) ∨ (∃ w, a ∈ (signalHandlerThread P w).1) ∨
    (∃ o, a ∈ (sender1 o).1) ∨ (∃ o, a ∈ (sender2 o).1)

/-! ## Reading a trace -/

/-- The sources read, in the order of the reads. -/
def readsOf : List Action → List Nat
  | [] => []
  | Action.read src _ :: rest => src :: readsOf rest
  | _ :: rest => readsOf rest

/-- Whether the action is a `poll` or a `read`. -/
def Action.isPollOrRead : Action → Bool
  | Action.poll _ _ => true
  | Action.read _ _ => true
  | _ => false

/-- Whether the action is a `write` on an event source. -/
def Action.isWrite : Action → Bool
  | Action.write _ _ _ => true
  | _ => false

/-- Whether the action is a `sigwait`. -/
def Action.isSigwait : Action → Bool
  | Action.sigwait _ _ => true
  | _ => false

/-- Whether the action ends the process or belongs to the tear-down of `main`. -/
def Action.isTeardown : Action → Bool
  | Action.join _ => true
  | Action.pthread_kill _ _ _ => true
  | Action.close _ => true
  | Action.ret _ => true
  | _ => false

/-! ## Definitions used to state the theorems -/

/-- The actions of the watcher thread up to its wait loop when the wait set is built. -/
def watcherHeader (P : Platform) : List Action :=
  [Action.setname, Action.sigemptyset 0, Action.sigaddset P.SIGINT 0,
    Action.sigaddset P.SIGTSTP 0, Action.sigaddset P.SIGTERM 0]

/-- The actions `main` can perform. -/
def Action.inMain : Action → Bool
  | Action.setname => false
  | Action.sigemptyset _ => false
  | Action.sigaddset _ _ => false
  | Action.sigwait _ _ => false
  | Action.storeFlag _ => false
  | Action.write _ _ _ => false
  | Action.sleep _ => false
  | _ => true

/-- The actions of the mask construction. -/
def Action.isSetup : Action → Bool
  | Action.log Msg.setUp => true
  | Action.sigfillset _ => true
  | Action.sigdelset _ _ => true
  | Action.pthread_sigmask _ _ => true
  | _ => false

/-- The actions of the event loop. -/
def Action.isLoop : Action → Bool
  | Action.loadFlag _ => true
  | Action.log Msg.aboutToPoll => true
  | Action.log Msg.pollError => true
  | Action.log Msg.readError => true
  | Action.poll _ _ => true
  | Action.read _ _ => true
  | Action.logReceived _ => true
  | Action.exit _ => true
  | _ => false

/-- The actions of `initializeSignalHandler` on the calling thread. -/
def Action.isInit : Action → Bool
  | Action.log Msg.setUp => true
  | Action.log Msg.setUpFailed => true
  | Action.sigfillset _ => true
  | Action.sigdelset _ _ => true
  | Action.pthread_sigmask _ _ => true
  | Action.spawn Thread.signalHandler => true
  | Action.exit _ => true
  | _ => false

/-- The actions between the signal set-up and the event loop. -/
def startActions : List Action :=
  [Action.eventfd eventFd1, Action.eventfd eventFd2,
    Action.spawn Thread.sender1, Action.spawn Thread.sender2]

/-- The sources whose `revents` has `POLLIN` set, in index order. -/
def readySources (P : Platform) (revents : Nat → Nat) : List Nat :=
  (List.range nfds).filter (fun i => decide (revents i &&& P.POLLIN ≠ 0))

/-- A pass on Linux in which both sources are ready and the read on source 0 fails. -/
def passReadFails : PollIn where
  exitRequested := false
  ready := 2
  revents := fun _ => 1
  rd := fun i => if i = 0 then (-1, 0) else (8, 2)

/-- A pass on Linux in which both sources are ready and both reads succeed. -/
def passBothReady : PollIn where
  exitRequested := false
  ready := 2
  revents := fun _ => 1
  rd := fun i => if i = 0 then (8, 1) else (8, 2)

/-- The mask `initializeSignalHandler` builds when every set-construction call succeeds. -/
def builtMask (P : Platform) : SigSet :=
  ((((P.allSignals.erase P.SIGABRT).erase P.SIGBUS).erase P.SIGFPE).erase P.SIGILL).erase P.SIGSEGV

/-- A run of the set-up on Linux in which every call returns 0. -/
def setupOk : SetupIn where
  uninit := ∅
  rcFill := 0
  rcDelABRT := 0
  rcDelBUS := 0
  rcDelFPE := 0
  rcDelILL := 0
  rcDelSEGV := 0
  rcMask := 0

/-- The set-up results that make `initializeSignalHandler` fail: some call returns non-zero. -/
def SetupIn.fails (s : SetupIn) : Prop :=
  s.rcFill ≠ 0 ∨ s.rcDelABRT ≠ 0 ∨ s.rcDelBUS ≠ 0 ∨ s.rcDelFPE ≠ 0 ∨ s.rcDelILL ≠ 0 ∨
    s.rcDelSEGV ≠ 0 ∨ s.rcMask ≠ 0

/-- The watcher results that make the wait-set construction fail. -/
def WatcherIn.fails (w : WatcherIn) : Prop :=
  w.rcEmpty ≠ 0 ∨ w.rcAddINT ≠ 0 ∨ w.rcAddTSTP ≠ 0 ∨ w.rcAddTERM ≠ 0

/-- A run of the set-up on Linux in which `sigdelset(&signal_set, SIGFPE)` fails. -/
def setupDelFails : SetupIn where
  uninit := ∅
  rcFill := 0
  rcDelABRT := 0
  rcDelBUS := 0
  rcDelFPE := -1
  rcDelILL := 0
  rcDelSEGV := 0
  rcMask := 0

/-- A run of `main` on Linux: the set-up succeeds, one pass of the loop reads both sources,
the next pass sees the flag set; `pthread_kill` returns 3 (`ESRCH`). -/
def mainGraceful : MainIn where
  setup := setupOk
  iters := [passBothReady, { passBothReady with exitRequested := true }]
  killRet := 3

/-- The array `pfds` right after a `poll` that stored `revents`. -/
def pfdsPolled (P : Platform) (revents : Nat → Nat) : Nat → pollfd :=
  fun j => { pfdsInit P j with revents := revents j }

/-- A run of `main` on Linux: the set-up succeeds, one pass reads both sources, in the next
pass the read on source 0 returns -1. -/
def mainReadFails : MainIn where
  setup := setupOk
  iters := [passBothReady, passReadFails, passBothReady]
  killRet := 0

/-! ## Theorems -/

theorem isShutdownSignal_iff (P : Platform) (sig : Int) :
    isShutdownSignal P sig = true ↔ sig ∈ P.shutdownSignals := by
  simp [isShutdownSignal, Platform.shutdownSignals, or_assoc]

theorem isShutdownSignal_neg_one (P : Platform) (hP : P.WellFormed) :
    isShutdownSignal P (-1) = false := by
  obtain ⟨h1, h2, h3, _⟩ := hP
  have a1 : (-1 : Int) ≠ P.SIGINT := by omega
  have a2 : (-1 : Int) ≠ P.SIGTSTP := by omega
  have a3 : (-1 : Int) ≠ P.SIGTERM := by omega
  simp [isShutdownSignal, a1, a2, a3]

theorem watcherLoop_of_shutdown (P : Platform) (set : SigSet) (sig : Int)
    (ds : List (Option Int)) (h : isShutdownSignal P sig = true) :
    watcherLoop P set sig ds = ([Action.storeFlag true], Outcome.finished) := by
  cases ds <;> simp [watcherLoop, h]

theorem watcherLoop_stops (P : Platform) (set : SigSet) (pre : List (Option Int)) :
    ∀ (sig s : Int) (post : List (Option Int)), isShutdownSignal P sig = false →
      (∀ v, some v ∈ pre → isShutdownSignal P v = false) → isShutdownSignal P s = true →
      watcherLoop P set sig (pre ++ some s :: post)
        = (pre.map (Action.sigwait set) ++ [Action.sigwait set (some s), Action.storeFlag true],
            Outcome.finished) := by
  induction pre with
  | nil =>
    intro sig s post hsig _ hs
    simp [watcherLoop, hsig, watcherLoop_of_shutdown P set s post hs]
  | cons d pre ih =>
    intro sig s post hsig hpre hs
    have hd : isShutdownSignal P (d.getD sig) = false := by
      cases d with
      | none => simpa using hsig
      | some v => simpa using hpre v (by simp)
    have := ih (d.getD sig) s post hd (fun v hv => hpre v (by simp [hv])) hs
    simp [watcherLoop, hsig, this]

theorem watcherLoop_waits (P : Platform) (set : SigSet) (ds : List (Option Int)) :
    ∀ (sig : Int), isShutdownSignal P sig = false →
      (∀ v, some v ∈ ds → isShutdownSignal P v = false) →
      watcherLoop P set sig ds = (ds.map (Action.sigwait set), Outcome.running) := by
  induction ds with
  | nil => intro sig hsig _; simp [watcherLoop, hsig]
  | cons d ds ih =>
    intro sig hsig hds
    have hd : isShutdownSignal P (d.getD sig) = false := by
      cases d with
      | none => simpa using hsig
      | some v => simpa using hds v (by simp)
    have := ih (d.getD sig) hd (fun v hv => hds v (by simp [hv]))
    simp [watcherLoop, hsig, this]

theorem waitSet_eq (P : Platform) :
    insert P.SIGTERM (insert P.SIGTSTP (insert P.SIGINT (∅ : SigSet))) = P.shutdownSignals := by
  ext x
  simp [Platform.shutdownSignals]
  tauto

theorem signalHandlerThread_built (P : Platform) (w : WatcherIn)
    (hrc : w.rcEmpty = 0 ∧ w.rcAddINT = 0 ∧ w.rcAddTSTP = 0 ∧ w.rcAddTERM = 0) :
    signalHandlerThread P w
      = (watcherHeader P ++ (watcherLoop P P.shutdownSignals (-1) w.deliveries).1,
          (watcherLoop P P.shutdownSignals (-1) w.deliveries).2) := by
  obtain ⟨h1, h2, h3, h4⟩ := hrc
  simp only [signalHandlerThread, watcherHeader, h1, h2, h3, h4, ne_eq, not_true_eq_false,
    if_false, waitSet_eq]

/-- C1: once its wait set is built, the watcher thread calls `sigwait` on exactly the set
of SIGINT, SIGTSTP and SIGTERM; for every sequence of `sigwait` results, it stops at the first
delivered number that is one of the three, stores `true` in `exitRequested` right then and
calls `sigwait` no more; and while no such number is delivered it stores nothing, however
many other results come first. -/
theorem C1_watcher_stops_at_first_shutdown_signal (P : Platform) (hP : P.WellFormed)
    (w : WatcherIn)
    (hrc : w.rcEmpty = 0 ∧ w.rcAddINT = 0 ∧ w.rcAddTSTP = 0 ∧ w.rcAddTERM = 0) :
    (∀ pre s post, w.deliveries = pre ++ some s :: post →
        (∀ v, some v ∈ pre → v ∉ P.shutdownSignals) → s ∈ P.shutdownSignals →
        signalHandlerThread P w
          = (watcherHeader P ++ pre.map (Action.sigwait P.shutdownSignals)
              ++ [Action.sigwait P.shutdownSignals (some s), Action.storeFlag true],
             Outcome.finished)) ∧
    ((∀ v, some v ∈ w.deliveries → v ∉ P.shutdownSignals) →
        signalHandlerThread P w
          = (watcherHeader P ++ w.deliveries.map (Action.sigwait P.shutdownSignals),
             Outcome.running)) := by
  have hneg := isShutdownSignal_neg_one P hP
  have hnot : ∀ v, v ∉ P.shutdownSignals → isShutdownSignal P v = false := by
    intro v hv
    cases h : isShutdownSignal P v with
    | false => rfl
    | true => exact absurd ((isShutdownSignal_iff P v).1 h) hv
  constructor
  · intro pre s post hd hpre hs
    have := watcherLoop_stops P P.shutdownSignals pre (-1) s post hneg
      (fun v hv => hnot v (hpre v hv)) ((isShutdownSignal_iff P s).2 hs)
    rw [signalHandlerThread_built P w hrc, hd, this, List.append_assoc]
  · intro hds
    have := watcherLoop_waits P P.shutdownSignals w.deliveries (-1) hneg
      (fun v hv => hnot v (hds v hv))
    rw [signalHandlerThread_built P w hrc, this]

theorem linux_wellFormed : linux.WellFormed := by
  simp [Platform.WellFormed, linux, Platform.faultSignals]

/-- C1 at a concrete run on Linux: a failed `sigwait`, then signal 10, then SIGTERM, then SIGINT. -/
theorem C1_watcher_witness :
    signalHandlerThread linux
        { rcEmpty := 0, rcAddINT := 0, rcAddTSTP := 0, rcAddTERM := 0,
          deliveries := [none, some 10, some 15, some 2] }
      = (watcherHeader linux ++
          [Action.sigwait linux.shutdownSignals none,
           Action.sigwait linux.shutdownSignals (some 10),
           Action.sigwait linux.shutdownSignals (some 15), Action.storeFlag true],
         Outcome.finished) := by
  have h := (C1_watcher_stops_at_first_shutdown_signal linux linux_wellFormed
    { rcEmpty := 0, rcAddINT := 0, rcAddTSTP := 0, rcAddTERM := 0,
      deliveries := [none, some 10, some 15, some 2] } ⟨rfl, rfl, rfl, rfl⟩).1
    [none, some 10] 15 [some 2] rfl
    (by simp [Platform.shutdownSignals, linux]) (by simp [Platform.shutdownSignals, linux])
  simpa using h

/-! ### The shutdown flag -/

theorem andCall_trace (st : SetupState) (rc : Int) (act : SigSet → Action)
    (upd : SigSet → SigSet) :
    (st.andCall rc act upd).trace
      = st.trace ++ (if st.success then [act st.signal_set] else []) := by
  unfold SetupState.andCall
  split <;> simp

theorem andCall_success (st : SetupState) (rc : Int) (act : SigSet → Action)
    (upd : SigSet → SigSet) :
    (st.andCall rc act upd).success = (st.success && (rc == 0)) := by
  unfold SetupState.andCall
  split <;> simp_all

theorem andCall_forall (q : Action → Prop) (st : SetupState) (rc : Int) (act : SigSet → Action)
    (upd : SigSet → SigSet) (h : ∀ a ∈ st.trace, q a) (hact : ∀ x, q (act x)) :
    ∀ a ∈ (st.andCall rc act upd).trace, q a := by
  intro a ha
  rw [andCall_trace] at ha
  rcases List.mem_append.1 ha with h1 | h1
  · exact h a h1
  · split at h1
    · simp at h1; subst h1; exact hact _
    · simp at h1

theorem buildMask_isSetup (P : Platform) (s : SetupIn) :
    ∀ a ∈ (buildMask P s).trace, a.isSetup = true := by
  unfold buildMask
  refine andCall_forall _ _ _ _ _ ?_ (fun _ => rfl)
  refine andCall_forall _ _ _ _ _ ?_ (fun _ => rfl)
  refine andCall_forall _ _ _ _ _ ?_ (fun _ => rfl)
  refine andCall_forall _ _ _ _ _ ?_ (fun _ => rfl)
  refine andCall_forall _ _ _ _ _ ?_ (fun _ => rfl)
  refine andCall_forall _ _ _ _ _ ?_ (fun _ => rfl)
  refine andCall_forall _ _ _ _ _ ?_ (fun _ => rfl)
  intro a ha
  simp at ha
  subst ha
  rfl

theorem readLoop_isLoop (P : Platform) (pfds : Nat → pollfd) (rd : Nat → Int × Nat)
    (is : List Nat) : ∀ a ∈ (readLoop P pfds rd is).1, a.isLoop = true := by
  induction is with
  | nil => simp [readLoop]
  | cons i is ih =>
    simp only [readLoop]
    split_ifs
    · simp [Action.isLoop]
    · simpa [Action.isLoop] using ih
    · exact ih

theorem pollLoop_isLoop (P : Platform) (its : List PollIn) :
    ∀ (pfds : Nat → pollfd), ∀ a ∈ (pollLoop P pfds its).1, a.isLoop = true := by
  induction its with
  | nil => simp [pollLoop]
  | cons it rest ih =>
    intro pfds
    simp only [pollLoop]
    split_ifs
    · simp [Action.isLoop]
    · simp [Action.isLoop]
    · simpa [Action.isLoop] using readLoop_isLoop _ _ _ _
    · have h1 := readLoop_isLoop P (fun i => { pfds i with revents := it.revents i }) it.rd
        (List.range nfds)
      have h2 := ih (fun i => { pfds i with revents := it.revents i })
      simp only [List.mem_cons, List.mem_append]
      rintro a (h | h | h | h | h)
      · subst h; rfl
      · subst h; rfl
      · subst h; rfl
      · exact h1 a h
      · exact h2 a h

theorem initializeSignalHandler_isInit (P : Platform) (s : SetupIn) :
    ∀ a ∈ (initializeSignalHandler P s).1, a.isInit = true := by
  have hs : ∀ a ∈ (buildMask P s).trace, a.isInit = true := by
    intro a ha
    have := buildMask_isSetup P s a ha
    revert this
    cases a <;> first | (intro; rfl) | simp [Action.isSetup]
    rename_i m
    cases m <;> simp [Action.isInit]
  simp only [initializeSignalHandler]
  split_ifs
  · simp only [List.mem_append, List.mem_cons, List.mem_singleton]
    rintro a (h | h | h | h)
    · exact hs a h
    · subst h; rfl
    · subst h; rfl
    · simp at h
  · simp only [List.mem_append, List.mem_singleton]
    rintro a (h | h)
    · exact hs a h
    · subst h; rfl

theorem teardown_eq (P : Platform) (h : ThreadHandle) (killRet : Int) (hj : h.joinable = true) :
    teardown P h killRet
      = [Action.join Thread.sender1, Action.join Thread.sender2,
          Action.pthread_kill h.thread P.SIGINT killRet, Action.logKill killRet,
          Action.join h.thread, Action.close eventFd1, Action.close eventFd2, Action.ret 0] := by
  simp [teardown, deinitializeSignalHandler, hj]

theorem teardown_isTeardown (P : Platform) (h : ThreadHandle) (killRet : Int) :
    ∀ a ∈ teardown P h killRet, a.isTeardown = true ∨ a = Action.logKill killRet := by
  simp only [teardown, deinitializeSignalHandler]
  split_ifs <;> simp [Action.isTeardown]

/-- The trace of `main` is made of the set-up, the start of the senders, the event loop and,
when the loop is left, the tear-down. -/
theorem main_eq (P : Platform) (m : MainIn) :
    main P m =
      match (initializeSignalHandler P m.setup).2 with
      | none => ((initializeSignalHandler P m.setup).1, Outcome.exited P.EXIT_FAILURE)
      | some h =>
        match (pollLoop P (pfdsInit P) m.iters).2 with
        | LoopEnd.running =>
          ((initializeSignalHandler P m.setup).1 ++ startActions
            ++ (pollLoop P (pfdsInit P) m.iters).1, Outcome.running)
        | LoopEnd.exited c =>
          ((initializeSignalHandler P m.setup).1 ++ startActions
            ++ (pollLoop P (pfdsInit P) m.iters).1, Outcome.exited c)
        | LoopEnd.left =>
          ((initializeSignalHandler P m.setup).1 ++ startActions
            ++ (pollLoop P (pfdsInit P) m.iters).1 ++ teardown P h m.killRet,
            Outcome.returned 0) := by
  rfl

theorem main_inMain (P : Platform) (m : MainIn) : ∀ a ∈ (main P m).1, a.inMain = true := by
  have h0 : ∀ a ∈ (initializeSignalHandler P m.setup).1, a.inMain = true := by
    intro a ha
    have := initializeSignalHandler_isInit P m.setup a ha
    revert this
    cases a <;> first | (intro; rfl) | simp [Action.isInit]
  have h1 : ∀ a ∈ (pollLoop P (pfdsInit P) m.iters).1, a.inMain = true := by
    intro a ha
    have := pollLoop_isLoop P m.iters (pfdsInit P) a ha
    revert this
    cases a <;> first | (intro; rfl) | simp [Action.isLoop]
  have hmid : ∀ a ∈ startActions, a.inMain = true := by
    simp [startActions, Action.inMain]
  rw [main_eq]
  split
  · exact h0
  · rename_i h _
    have h2 : ∀ a ∈ teardown P h m.killRet, a.inMain = true := by
      intro a ha
      rcases teardown_isTeardown P h m.killRet a ha with h | h
      · revert h
        cases a <;> first | (intro; rfl) | simp [Action.isTeardown]
      · subst h; rfl
    split
    · intro a ha
      rcases List.mem_append.1 ha with ha | ha
      · rcases List.mem_append.1 ha with ha | ha
        · exact h0 a ha
        · exact hmid a ha
      · exact h1 a ha
    · intro a ha
      rcases List.mem_append.1 ha with ha | ha
      · rcases List.mem_append.1 ha with ha | ha
        · exact h0 a ha
        · exact hmid a ha
      · exact h1 a ha
    · intro a ha
      rcases List.mem_append.1 ha with ha | ha
      · rcases List.mem_append.1 ha with ha | ha
        · rcases List.mem_append.1 ha with ha | ha
          · exact h0 a ha
          · exact hmid a ha
        · exact h1 a ha
      · exact h2 a ha

theorem watcherLoop_mem (P : Platform) (set : SigSet) (ds : List (Option Int)) :
    ∀ (sig : Int), ∀ a ∈ (watcherLoop P set sig ds).1,
      a = Action.storeFlag true ∨ a.isSigwait = true := by
  induction ds with
  | nil =>
    intro sig
    simp only [watcherLoop]
    split_ifs <;> simp
  | cons d ds ih =>
    intro sig
    simp only [watcherLoop]
    split_ifs
    · simp
    · simp only [List.mem_cons]
      rintro a (h | h)
      · subst h; right; rfl
      · exact ih _ a h

theorem signalHandlerThread_store (P : Platform) (w : WatcherIn) (b : Bool)
    (h : Action.storeFlag b ∈ (signalHandlerThread P w).1) : b = true := by
  simp only [signalHandlerThread] at h
  split_ifs at h
  · simp at h
  · simp at h
  · simp at h
  · simp at h
  · simp only [List.mem_append, List.mem_cons, List.mem_singleton] at h
    rcases h with h | h
    · simp at h
    · rcases watcherLoop_mem _ _ _ _ _ h with h | h
      · simpa using h
      · simp [Action.isSigwait] at h

theorem senderLoop_mem (src tmp periodMs : Nat) (o : List (Bool × Int)) :
    ∀ a ∈ (senderLoop src tmp periodMs o).1,
      (∃ b, a = Action.loadFlag b) ∨ (∃ r, a = Action.write src tmp r) ∨
        a = Action.sleep periodMs := by
  induction o with
  | nil => simp [senderLoop]
  | cons x rest ih =>
    obtain ⟨flag, wr⟩ := x
    simp only [senderLoop]
    split_ifs
    · simp
    · simp only [List.mem_cons]
      rintro a (h | h | h | h)
      · subst h; simp
      · subst h; simp
      · subst h; simp
      · exact ih a h

theorem performed_store (P : Platform) (a : Action) (h : Performed P a) (b : Bool)
    (hb : a = Action.storeFlag b) : b = true := by
  subst hb
  rcases h with ⟨m, h⟩ | ⟨w, h⟩ | ⟨o, h⟩ | ⟨o, h⟩
  · have := main_inMain P m _ h
    simp [Action.inMain] at this
  · exact signalHandlerThread_store P w b h
  · rcases senderLoop_mem _ _ _ _ _ h with ⟨_, h⟩ | ⟨_, h⟩ | h <;> simp at h
  · rcases senderLoop_mem _ _ _ _ _ h with ⟨_, h⟩ | ⟨_, h⟩ | h <;> simp at h

theorem flagAfter_append (flag : Bool) (pre post : List Action) :
    flagAfter flag (pre ++ post) = flagAfter (flagAfter flag pre) post := by
  simp [flagAfter, List.foldl_append]

theorem flagAfter_true (steps : List Action)
    (h : ∀ a ∈ steps, ∀ b, a = Action.storeFlag b → b = true) :
    flagAfter true steps = true := by
  induction steps with
  | nil => rfl
  | cons a rest ih =>
    have hrest := ih (fun x hx => h x (List.mem_cons_of_mem _ hx))
    have ha : flagStep true a = true := by
      cases a <;> first | rfl | exact h _ (List.mem_cons_self _ _) _ rfl
    simpa [flagAfter, ha] using hrest

/-- C2: `exitRequested` starts false; every write to it that any thread of the program
performs stores `true`; so along every sequence of performed actions, once the flag is true
after some prefix it is true at the end of the sequence; and storing `true` into a flag that
is already true, or storing it twice, changes nothing. -/
theorem C2_flag_set_once_never_reset (P : Platform) (steps : List Action)
    (hsteps : ∀ a ∈ steps, Performed P a) :
    exitRequestedInit = false ∧
    (∀ a, Performed P a → ∀ b, a = Action.storeFlag b → b = true) ∧
    (∀ pre post, steps = pre ++ post → flagAfter exitRequestedInit pre = true →
        flagAfter exitRequestedInit steps = true) ∧
    flagStep true (Action.storeFlag true) = true ∧
    (∀ flag, flagStep (flagStep flag (Action.storeFlag true)) (Action.storeFlag true)
        = flagStep flag (Action.storeFlag true)) := by
  refine ⟨rfl, fun a ha b hb => performed_store P a ha b hb, ?_, rfl, fun _ => rfl⟩
  intro pre post hsplit hpre
  subst hsplit
  rw [flagAfter_append, hpre]
  exact flagAfter_true post
    (fun a ha b hb => performed_store P a (hsteps a (List.mem_append_right _ ha)) b hb)

/-- C2 at a concrete run on Linux: the main loop reads the flag, the watcher stores `true`,
a sender reads the flag, the watcher's store is replayed. -/
theorem C2_flag_witness :
    flagAfter exitRequestedInit
        [Action.loadFlag false, Action.storeFlag true, Action.loadFlag true] = true := by
  have hw : Performed linux (Action.storeFlag true) :=
    Or.inr (Or.inl ⟨WatcherIn.mk 0 0 0 0 [some 2],
      by simp [signalHandlerThread, watcherLoop, isShutdownSignal, linux]⟩)
  have hl : ∀ b, Performed linux (Action.loadFlag b) := fun b =>
    Or.inr (Or.inr (Or.inl ⟨[(b, 0)], by cases b <;> simp [sender1, senderLoop]⟩))
  have h := (C2_flag_set_once_never_reset linux
    [Action.loadFlag false, Action.storeFlag true, Action.loadFlag true]
    (by
      intro a ha
      simp only [List.mem_cons, List.mem_singleton] at ha
      rcases ha with h | h | h | h
      · subst h; exact hl false
      · subst h; exact hw
      · subst h; exact hl true
      · simp at h)).2.2.1
    [Action.loadFlag false, Action.storeFlag true] [Action.loadFlag true] rfl rfl
  exact h

/-! ### One pass of the event loop -/

theorem range_nfds : List.range nfds = [0, 1] := rfl

theorem readySources_mem (P : Platform) (revents : Nat → Nat) (i : Nat) :
    i ∈ readySources P revents ↔ i < nfds ∧ revents i &&& P.POLLIN ≠ 0 := by
  simp [readySources, List.mem_filter, List.mem_range]

theorem readySources_increasing (P : Platform) (revents : Nat → Nat) :
    List.Pairwise (fun i j => i < j) (readySources P revents) := by
  by_cases c0 : revents 0 &&& P.POLLIN = 0 <;> by_cases c1 : revents 1 &&& P.POLLIN = 0 <;>
    simp [readySources, range_nfds, List.filter, c0, c1]

theorem pollLoop_reads_ready (P : Platform) (pfds : Nat → pollfd) (it : PollIn)
    (hfd : ∀ i, i < nfds → (pfds i).fd = i)
    (hflag : it.exitRequested = false) (hready : it.ready ≠ -1)
    (hrd : ∀ i, i < nfds → it.revents i &&& P.POLLIN ≠ 0 → (it.rd i).1 ≠ -1) :
    readsOf (pollLoop P pfds [it]).1 = readySources P it.revents ∧
    (pollLoop P pfds [it]).2 = LoopEnd.running := by
  have h0 : (pfds 0).fd = 0 := hfd 0 (by decide)
  have h1 : (pfds 1).fd = 1 := hfd 1 (by decide)
  by_cases c0 : it.revents 0 &&& P.POLLIN = 0 <;> by_cases c1 : it.revents 1 &&& P.POLLIN = 0
  · simp [readySources, pollLoop, readLoop, range_nfds, readsOf, hflag, hready, c0, c1,
      List.filter]
  · have f1 := hrd 1 (by decide) c1
    simp [readySources, pollLoop, readLoop, range_nfds, readsOf, hflag, hready, c0, c1, f1,
      h1, List.filter]
  · have f0 := hrd 0 (by decide) c0
    simp [readySources, pollLoop, readLoop, range_nfds, readsOf, hflag, hready, c0, c1, f0,
      h0, List.filter]
  · have f0 := hrd 0 (by decide) c0
    have f1 := hrd 1 (by decide) c1
    simp [readySources, pollLoop, readLoop, range_nfds, readsOf, hflag, hready, c0, c1, f0, f1,
      h0, h1, List.filter]

theorem pfdsInit_fd (P : Platform) : ∀ i, i < nfds → (pfdsInit P i).fd = i := by
  intro i hi
  simp only [nfds] at hi
  interval_cases i <;> rfl

theorem kernelPollIn_ready (P : Platform) (c : Counters) : (kernelPollIn P c).ready ≠ -1 := by
  simp only [kernelPollIn]
  split_ifs <;> decide

/-- On an eventfd, a read on a source that `poll` reported with `POLLIN` does not return -1:
the counter is above zero. -/
theorem kernelPollIn_read (P : Platform) (c : Counters) (i : Nat)
    (h : (kernelPollIn P c).revents i &&& P.POLLIN ≠ 0) : ((kernelPollIn P c).rd i).1 ≠ -1 := by
  simp only [kernelPollIn, eventfdRevents, eventfdRead] at h ⊢
  by_cases hc : c.get i = 0
  · simp [hc] at h
  · simp [hc]

/-- C3: in one pass of the event loop after a successful poll, the sources read, in the order
of the reads, are exactly the sources whose `revents` has `POLLIN` set, in index order: one
read on each such source, none on a source without `POLLIN`, source 0 before source 1.  This
holds for every state of the two eventfd counters, with the readiness and the read results
the kernel gives for them (a read on a source reported with `POLLIN` never returns -1 there);
and for any `revents` values whatever, as long as the reads on the sources reported ready do
not return -1. -/
theorem C3_one_read_per_ready_source_in_index_order (P : Platform) (c : Counters)
    (pfds : Nat → pollfd) (it : PollIn) (hfd : ∀ i, i < nfds → (pfds i).fd = i)
    (hflag : it.exitRequested = false) (hready : it.ready ≠ -1)
    (hrd : ∀ i, i < nfds → it.revents i &&& P.POLLIN ≠ 0 → (it.rd i).1 ≠ -1) :
    (readsOf (pollLoop P (pfdsInit P) [kernelPollIn P c]).1
        = readySources P (kernelPollIn P c).revents ∧
      (∀ i, (kernelPollIn P c).revents i &&& P.POLLIN ≠ 0 →
        ((kernelPollIn P c).rd i).1 ≠ -1) ∧
      (∀ i, i ∈ readySources P (kernelPollIn P c).revents ↔
        i < nfds ∧ 0 < c.get i ∧ P.POLLIN ≠ 0)) ∧
    readsOf (pollLoop P pfds [it]).1 = readySources P it.revents ∧
    (∀ i, i ∈ readySources P it.revents ↔ i < nfds ∧ it.revents i &&& P.POLLIN ≠ 0) ∧
    List.Pairwise (fun i j => i < j) (readySources P it.revents) := by
  refine ⟨⟨?_, kernelPollIn_read P c, ?_⟩, ?_, readySources_mem P it.revents,
    readySources_increasing P it.revents⟩
  · exact (pollLoop_reads_ready P (pfdsInit P) (kernelPollIn P c) (pfdsInit_fd P) rfl
      (kernelPollIn_ready P c) (fun i _ h => kernelPollIn_read P c i h)).1
  · intro i
    rw [readySources_mem]
    simp only [kernelPollIn, eventfdRevents]
    by_cases hc : 0 < c.get i
    · simp [hc]
    · simp [hc]
  · exact (pollLoop_reads_ready P pfds it hfd hflag hready hrd).1

/-- C3 at concrete passes on Linux: the counters at 1 and 2 (both sources ready), and a pass
in which both reads succeed. -/
theorem C3_reads_witness :
    readsOf (pollLoop linux (pfdsInit linux) [kernelPollIn linux { c1 := 1, c2 := 2 }]).1
      = [0, 1] ∧
    readsOf (pollLoop linux (pfdsInit linux) [passBothReady]).1 = [0, 1] := by
  have h := C3_one_read_per_ready_source_in_index_order linux { c1 := 1, c2 := 2 }
    (pfdsInit linux) passBothReady (pfdsInit_fd linux) rfl (by decide)
    (by intro i hi _; simp only [nfds] at hi; interval_cases i <;> simp [passBothReady])
  refine ⟨?_, ?_⟩
  · rw [h.1.1]
    simp [readySources, range_nfds, kernelPollIn, eventfdRevents, Counters.get, linux,
      List.filter]
  · rw [h.2.1]
    simp [readySources, range_nfds, passBothReady, linux, List.filter]

/-! ### The signal mask -/

theorem builtMask_eq (P : Platform) : builtMask P = P.allSignals \ P.faultSignals := by
  ext x
  simp [builtMask, Platform.faultSignals]
  tauto

theorem buildMask_of_sets_ok (P : Platform) (s : SetupIn)
    (hrc : s.rcFill = 0 ∧ s.rcDelABRT = 0 ∧ s.rcDelBUS = 0 ∧ s.rcDelFPE = 0 ∧ s.rcDelILL = 0 ∧
      s.rcDelSEGV = 0) :
    buildMask P s =
      { success := s.rcMask == 0
        signal_set := builtMask P
        trace := [Action.log Msg.setUp, Action.sigfillset 0, Action.sigdelset P.SIGABRT 0,
          Action.sigdelset P.SIGBUS 0, Action.sigdelset P.SIGFPE 0, Action.sigdelset P.SIGILL 0,
          Action.sigdelset P.SIGSEGV 0, Action.pthread_sigmask (builtMask P) s.rcMask] } := by
  obtain ⟨h1, h2, h3, h4, h5, h6⟩ := hrc
  simp [buildMask, SetupState.andCall, builtMask, h1, h2, h3, h4, h5, h6]

/-- C6: when `sigfillset` and the five `sigdelset` calls succeed, the calling thread's actions
are the set construction followed by `pthread_sigmask` on the full signal set minus
SIGABRT, SIGBUS, SIGFPE, SIGILL and SIGSEGV, and the watcher thread is spawned only after it
(when `pthread_sigmask` returns 0; otherwise the process exits); every signal of the platform
other than the five is in that mask, in particular SIGINT, SIGTSTP and SIGTERM, and none of
the five is. -/
theorem C6_mask_is_full_set_minus_fault_signals (P : Platform) (hP : P.WellFormed)
    (s : SetupIn)
    (hrc : s.rcFill = 0 ∧ s.rcDelABRT = 0 ∧ s.rcDelBUS = 0 ∧ s.rcDelFPE = 0 ∧ s.rcDelILL = 0 ∧
      s.rcDelSEGV = 0) :
    (initializeSignalHandler P s).1
      = [Action.log Msg.setUp, Action.sigfillset 0, Action.sigdelset P.SIGABRT 0,
          Action.sigdelset P.SIGBUS 0, Action.sigdelset P.SIGFPE 0, Action.sigdelset P.SIGILL 0,
          Action.sigdelset P.SIGSEGV 0,
          Action.pthread_sigmask (P.allSignals \ P.faultSignals) s.rcMask]
        ++ (if s.rcMask = 0 then [Action.spawn Thread.signalHandler]
            else [Action.log Msg.setUpFailed, Action.exit P.EXIT_FAILURE]) ∧
    (∀ x, x ∈ P.allSignals \ P.faultSignals ↔
        x ∈ P.allSignals ∧ x ≠ P.SIGABRT ∧ x ≠ P.SIGBUS ∧ x ≠ P.SIGFPE ∧ x ≠ P.SIGILL ∧
          x ≠ P.SIGSEGV) ∧
    P.SIGINT ∈ P.allSignals \ P.faultSignals ∧
    P.SIGTSTP ∈ P.allSignals \ P.faultSignals ∧
    P.SIGTERM ∈ P.allSignals \ P.faultSignals := by
  obtain ⟨_, _, _, a1, a2, a3, b1, b2, b3, _⟩ := hP
  refine ⟨?_, ?_, ?_, ?_, ?_⟩
  · simp only [initializeSignalHandler]
    rw [buildMask_of_sets_ok P s hrc, builtMask_eq]
    by_cases h : s.rcMask = 0 <;> simp [h]
  · intro x
    simp [Platform.faultSignals]
  · exact Finset.mem_sdiff.2 ⟨a1, b1⟩
  · exact Finset.mem_sdiff.2 ⟨a2, b2⟩
  · exact Finset.mem_sdiff.2 ⟨a3, b3⟩

/-- C6 at a concrete run on Linux: every call returns 0. -/
theorem C6_mask_witness :
    (initializeSignalHandler linux setupOk).1
      = [Action.log Msg.setUp, Action.sigfillset 0, Action.sigdelset 6 0,
          Action.sigdelset 7 0, Action.sigdelset 8 0, Action.sigdelset 4 0,
          Action.sigdelset 11 0,
          Action.pthread_sigmask (Finset.Icc 1 64 \ {6, 7, 8, 4, 11}) 0,
          Action.spawn Thread.signalHandler] := by
  have h := (C6_mask_is_full_set_minus_fault_signals linux linux_wellFormed setupOk
    ⟨rfl, rfl, rfl, rfl, rfl, rfl⟩).1
  simpa [setupOk, linux, Platform.faultSignals] using h

/-! ### Failures of the signal set-up -/

theorem buildMask_success (P : Platform) (s : SetupIn) :
    (buildMask P s).success = true ↔
      (s.rcFill = 0 ∧ s.rcDelABRT = 0 ∧ s.rcDelBUS = 0 ∧ s.rcDelFPE = 0 ∧ s.rcDelILL = 0 ∧
        s.rcDelSEGV = 0 ∧ s.rcMask = 0) := by
  simp [buildMask, andCall_success, and_assoc]

/-- C10: if `sigfillset`, one of the five `sigdelset` calls or `pthread_sigmask` returns
non-zero, `initializeSignalHandler` ends in `exit(EXIT_FAILURE)` without spawning the watcher
thread, and `main` does nothing more; if `sigemptyset` or one of the three `sigaddset` calls
returns non-zero in the watcher thread, the thread ends in `exit(EXIT_FAILURE)` without any
`sigwait` and without a store to the flag; `EXIT_FAILURE` is non-zero. -/
theorem C10_signal_setup_failure_is_fatal (P : Platform) (hP : P.WellFormed)
    (m : MainIn) (w : WatcherIn) (hm : m.setup.fails) (hw : w.fails) :
    P.EXIT_FAILURE ≠ 0 ∧
    main P m = ((buildMask P m.setup).trace
        ++ [Action.log Msg.setUpFailed, Action.exit P.EXIT_FAILURE],
      Outcome.exited P.EXIT_FAILURE) ∧
    (∀ t, Action.spawn t ∉ (main P m).1) ∧
    (signalHandlerThread P w).2 = Outcome.exited P.EXIT_FAILURE ∧
    (∃ pre, (signalHandlerThread P w).1 = pre ++ [Action.exit P.EXIT_FAILURE]) ∧
    (∀ a ∈ (signalHandlerThread P w).1, a.isSigwait = false ∧ ∀ b, a ≠ Action.storeFlag b) := by
  have hs : (buildMask P m.setup).success = false := by
    cases h : (buildMask P m.setup).success with
    | false => rfl
    | true =>
      obtain ⟨h1, h2, h3, h4, h5, h6, h7⟩ := (buildMask_success P m.setup).1 h
      simp [SetupIn.fails, h1, h2, h3, h4, h5, h6, h7] at hm
  have hmain : main P m = ((buildMask P m.setup).trace
        ++ [Action.log Msg.setUpFailed, Action.exit P.EXIT_FAILURE],
      Outcome.exited P.EXIT_FAILURE) := by
    simp [main, initializeSignalHandler, hs]
  refine ⟨hP.2.2.2.2.2.2.2.2.2, hmain, ?_, ?_⟩
  · intro t ht
    rw [hmain] at ht
    simp only [List.mem_append, List.mem_cons, List.mem_singleton] at ht
    rcases ht with h | h | h | h
    · have := buildMask_isSetup P m.setup _ h
      simp [Action.isSetup] at this
    · simp at h
    · simp at h
    · simp at h
  · simp only [signalHandlerThread]
    split_ifs with h1 h2 h3 h4
    · exact ⟨rfl, ⟨[_, _, _], rfl⟩, by simp [Action.isSigwait]⟩
    · exact ⟨rfl, ⟨[_, _, _, _], rfl⟩, by simp [Action.isSigwait]⟩
    · exact ⟨rfl, ⟨[_, _, _, _, _], rfl⟩, by simp [Action.isSigwait]⟩
    · exact ⟨rfl, ⟨[_, _, _, _, _, _], rfl⟩, by simp [Action.isSigwait]⟩
    · rcases hw with h | h | h | h
      · exact absurd h h1
      · exact absurd h h2
      · exact absurd h h3
      · exact absurd h h4

/-- C10 at a concrete run on Linux: `sigdelset(SIGFPE)` fails on the main thread (the later
calls are not made), and `sigaddset(SIGTSTP)` fails in the watcher. -/
theorem C10_setup_failure_witness :
    main linux { setup := setupDelFails, iters := [passBothReady], killRet := 0 }
      = ([Action.log Msg.setUp, Action.sigfillset 0, Action.sigdelset 6 0,
          Action.sigdelset 7 0, Action.sigdelset 8 (-1), Action.log Msg.setUpFailed,
          Action.exit 1], Outcome.exited 1) ∧
    (signalHandlerThread linux (WatcherIn.mk 0 0 (-1) 0 [some 2])).2 = Outcome.exited 1 := by
  have h := C10_signal_setup_failure_is_fatal linux linux_wellFormed
    { setup := setupDelFails, iters := [passBothReady], killRet := 0 }
    (WatcherIn.mk 0 0 (-1) 0 [some 2])
    (by simp [SetupIn.fails, setupDelFails]) (by simp [WatcherIn.fails])
  refine ⟨?_, h.2.2.2.1⟩
  rw [h.2.1]
  simp [buildMask, SetupState.andCall, setupDelFails, linux]

/-! ### Tear-down -/

/-- C7: when the signal set-up succeeded and the event loop is left because the flag was read
as true, what `main` does next, whatever `pthread_kill` returns, is: join `sender1`, join
`sender2`, send SIGINT to the watcher thread, log the result, join the watcher, close
`eventFd1`, close `eventFd2`, return 0.  Each event source is closed exactly once in the
whole run, and the three joins come before both closes. -/
theorem C7_teardown_order (P : Platform) (m : MainIn)
    (hsetup : ¬ m.setup.fails)
    (hleft : (pollLoop P (pfdsInit P) m.iters).2 = LoopEnd.left) :
    main P m
      = ((initializeSignalHandler P m.setup).1 ++ startActions
          ++ (pollLoop P (pfdsInit P) m.iters).1
          ++ [Action.join Thread.sender1, Action.join Thread.sender2,
              Action.pthread_kill Thread.signalHandler P.SIGINT m.killRet,
              Action.logKill m.killRet, Action.join Thread.signalHandler,
              Action.close eventFd1, Action.close eventFd2, Action.ret 0],
         Outcome.returned 0) ∧
    (main P m).1.count (Action.close eventFd1) = 1 ∧
    (main P m).1.count (Action.close eventFd2) = 1 ∧
    (∀ a ∈ (initializeSignalHandler P m.setup).1 ++ startActions
          ++ (pollLoop P (pfdsInit P) m.iters).1, a.isTeardown = false) := by
  have hs : (buildMask P m.setup).success = true := by
    rw [buildMask_success]
    simp only [SetupIn.fails, not_or, not_not] at hsetup
    exact hsetup
  have hh : (initializeSignalHandler P m.setup).2
      = some { thread := Thread.signalHandler, joinable := true } := by
    simp [initializeSignalHandler, hs]
  have hno : ∀ a ∈ (initializeSignalHandler P m.setup).1 ++ startActions
      ++ (pollLoop P (pfdsInit P) m.iters).1, a.isTeardown = false := by
    intro a ha
    rcases List.mem_append.1 ha with ha | ha
    · rcases List.mem_append.1 ha with ha | ha
      · have := initializeSignalHandler_isInit P m.setup a ha
        revert this
        cases a <;> first | (intro; rfl) | simp [Action.isInit]
      · revert ha
        simp only [startActions, List.mem_cons, List.mem_singleton]
        rintro (h | h | h | h | h)
        · subst h; rfl
        · subst h; rfl
        · subst h; rfl
        · subst h; rfl
        · simp at h
    · have := pollLoop_isLoop P m.iters (pfdsInit P) a ha
      revert this
      cases a <;> first | (intro; rfl) | simp [Action.isLoop]
  have hmain : main P m
      = ((initializeSignalHandler P m.setup).1 ++ startActions
          ++ (pollLoop P (pfdsInit P) m.iters).1
          ++ [Action.join Thread.sender1, Action.join Thread.sender2,
              Action.pthread_kill Thread.signalHandler P.SIGINT m.killRet,
              Action.logKill m.killRet, Action.join Thread.signalHandler,
              Action.close eventFd1, Action.close eventFd2, Action.ret 0],
         Outcome.returned 0) := by
    rw [main_eq, hh]
    simp only [hleft]
    rw [teardown_eq P _ _ rfl]
  have hcount : ∀ src, List.count (Action.close src)
      ((initializeSignalHandler P m.setup).1 ++ startActions
          ++ (pollLoop P (pfdsInit P) m.iters).1) = 0 := by
    intro src
    rw [List.count_eq_zero]
    intro hmem
    have := hno _ hmem
    simp [Action.isTeardown] at this
  refine ⟨hmain, ?_, ?_, hno⟩
  · rw [hmain]
    simp only [List.count_append, hcount]
    simp [List.count_cons, eventFd1, eventFd2]
  · rw [hmain]
    simp only [List.count_append, hcount]
    simp [List.count_cons, eventFd1, eventFd2]

/-- C7 at a concrete run on Linux, with a failing `pthread_kill`. -/
theorem C7_teardown_witness :
    (main linux mainGraceful).2 = Outcome.returned 0 ∧
    (main linux mainGraceful).1.count (Action.close eventFd1) = 1 ∧
    (main linux mainGraceful).1.count (Action.close eventFd2) = 1 := by
  have h := C7_teardown_order linux mainGraceful
    (by simp [SetupIn.fails, mainGraceful, setupOk])
    (by simp [mainGraceful, passBothReady, pollLoop, readLoop, range_nfds, linux, pfdsInit])
  exact ⟨by rw [h.1], h.2.1, h.2.2.1⟩

/-! ### A failed write in a sender -/

/-- C9, as stated, fails: a `write` that returns -1 does not end the process; `sender1`
sleeps, checks the flag again, writes again, and ends normally once the flag is true. -/
theorem C9_counterexample_write_failure_ignored :
    sender1 [(false, -1), (false, 8), (true, 0)]
      = ([Action.loadFlag false, Action.write eventFd1 1 (-1), Action.sleep 200,
          Action.loadFlag false, Action.write eventFd1 1 8, Action.sleep 200,
          Action.loadFlag true], Outcome.finished) := by
  simp [sender1, senderLoop]

theorem senderLoop_no_exit (src tmp periodMs : Nat) (o : List (Bool × Int)) :
    (∀ c, (senderLoop src tmp periodMs o).2 ≠ Outcome.exited c) ∧
    (∀ pre r post, (senderLoop src tmp periodMs o).1 = pre ++ Action.write src tmp r :: post →
      ∃ post', post = Action.sleep periodMs :: post' ∧
        (post' = [] ∨ ∃ b post'', post' = Action.loadFlag b :: post'')) := by
  induction o with
  | nil => simp [senderLoop]
  | cons x rest ih =>
    obtain ⟨flag, wr⟩ := x
    cases flag with
    | true =>
      refine ⟨by simp [senderLoop], ?_⟩
      intro pre r post h
      simp only [senderLoop, if_true] at h
      cases pre with
      | nil => simp at h
      | cons y pre => simp at h
    | false =>
      refine ⟨by simpa [senderLoop] using ih.1, ?_⟩
      intro pre r post h
      simp only [senderLoop, Bool.false_eq_true, if_false] at h
      cases pre with
      | nil => simp at h
      | cons y pre =>
        cases pre with
        | nil =>
          simp only [List.cons_append, List.nil_append, List.cons.injEq] at h
          obtain ⟨_, _, h3⟩ := h
          refine ⟨_, h3.symm, ?_⟩
          cases rest with
          | nil => left; rfl
          | cons z rest =>
            obtain ⟨f, w⟩ := z
            right
            cases f <;> simp [senderLoop]
        | cons z pre =>
          cases pre with
          | nil => simp at h
          | cons u pre =>
            simp only [List.cons_append, List.cons.injEq] at h
            exact ih.2 pre r post h.2.2.2

/-- C9, amended: no result of `write` ends the process or a sender: neither sender ever
calls `exit`, and after every `write`, whatever it returned, the sender sleeps its period and
then (if it runs on) reads the flag again. -/
theorem C9_write_result_is_ignored (o : List (Bool × Int)) :
    (∀ c, (sender1 o).2 ≠ Outcome.exited c) ∧ (∀ c, (sender2 o).2 ≠ Outcome.exited c) ∧
    (∀ c, Action.exit c ∉ (sender1 o).1) ∧ (∀ c, Action.exit c ∉ (sender2 o).1) ∧
    (∀ pre r post, (sender1 o).1 = pre ++ Action.write eventFd1 1 r :: post →
      ∃ post', post = Action.sleep 200 :: post' ∧
        (post' = [] ∨ ∃ b post'', post' = Action.loadFlag b :: post'')) ∧
    (∀ pre r post, (sender2 o).1 = pre ++ Action.write eventFd2 2 r :: post →
      ∃ post', post = Action.sleep 500 :: post' ∧
        (post' = [] ∨ ∃ b post'', post' = Action.loadFlag b :: post'')) := by
  refine ⟨(senderLoop_no_exit _ _ _ o).1, (senderLoop_no_exit _ _ _ o).1, ?_, ?_,
    (senderLoop_no_exit _ _ _ o).2, (senderLoop_no_exit _ _ _ o).2⟩
  · intro c h
    rcases senderLoop_mem _ _ _ _ _ h with ⟨_, h⟩ | ⟨_, h⟩ | h <;> simp at h
  · intro c h
    rcases senderLoop_mem _ _ _ _ _ h with ⟨_, h⟩ | ⟨_, h⟩ | h <;> simp at h

/-! ### Cooperative stop -/

theorem cons_split {α : Type} {y x : α} {l pre post : List α} (hne : y ≠ x)
    (h : y :: l = pre ++ x :: post) : ∃ pre', pre = y :: pre' ∧ l = pre' ++ x :: post := by
  cases pre with
  | nil =>
    simp only [List.nil_append, List.cons.injEq] at h
    exact absurd h.1 hne
  | cons z pre' =>
    simp only [List.cons_append, List.cons.injEq] at h
    exact ⟨pre', by rw [h.1], h.2⟩

theorem append_split_right {α : Type} {A B pre post : List α} {x : α} (hx : x ∉ A)
    (h : A ++ B = pre ++ x :: post) : ∃ pre', pre = A ++ pre' ∧ B = pre' ++ x :: post := by
  induction A generalizing pre with
  | nil => exact ⟨pre, rfl, h⟩
  | cons y A ih =>
    have hne : y ≠ x := fun e => hx (by simp [e])
    obtain ⟨pre1, hp, hl⟩ := cons_split hne h
    obtain ⟨pre', hp', hB⟩ := ih (fun hm => hx (List.mem_cons_of_mem _ hm)) hl
    exact ⟨pre', by rw [hp, hp']; rfl, hB⟩

theorem append_split_left {α : Type} {A B pre post : List α} {x : α} (hx : x ∉ B)
    (h : A ++ B = pre ++ x :: post) : ∃ post', post = post' ++ B ∧ A = pre ++ x :: post' := by
  rcases List.append_eq_append_iff.1 h with ⟨a', h1, h2⟩ | ⟨c', h1, h2⟩
  · cases a' with
    | nil =>
      simp only [List.nil_append] at h2
      exact absurd (by rw [h2]; simp) hx
    | cons z a' =>
      simp only [List.cons_append] at h2
      exact absurd (by rw [h2]; simp) hx
  · cases c' with
    | nil =>
      simp only [List.nil_append] at h2
      exact absurd (by rw [← h2]; simp) hx
    | cons z c' =>
      simp only [List.cons_append, List.cons.injEq] at h2
      exact ⟨c', h2.2, by rw [h1, h2.1]⟩

theorem senderLoop_after_true (src tmp periodMs : Nat) (o : List (Bool × Int)) :
    ∀ pre post, (senderLoop src tmp periodMs o).1 = pre ++ Action.loadFlag true :: post →
      post = [] := by
  induction o with
  | nil => intro pre post h; simp [senderLoop] at h
  | cons x rest ih =>
    obtain ⟨flag, wr⟩ := x
    intro pre post h
    cases flag with
    | true =>
      simp only [senderLoop, if_true] at h
      cases pre with
      | nil => simpa using h.symm
      | cons y pre => simp at h
    | false =>
      simp only [senderLoop, Bool.false_eq_true, if_false] at h
      obtain ⟨p1, _, h1⟩ := cons_split (by simp) h
      obtain ⟨p2, _, h2⟩ := cons_split (by simp) h1
      obtain ⟨p3, _, h3⟩ := cons_split (by simp) h2
      exact ih p3 post h3

theorem senderLoop_write_guarded (src tmp periodMs : Nat) (o : List (Bool × Int)) :
    ∀ pre r post, (senderLoop src tmp periodMs o).1 = pre ++ Action.write src tmp r :: post →
      ∃ pre', pre = pre' ++ [Action.loadFlag false] := by
  induction o with
  | nil => intro pre r post h; simp [senderLoop] at h
  | cons x rest ih =>
    obtain ⟨flag, wr⟩ := x
    intro pre r post h
    cases flag with
    | true =>
      simp only [senderLoop, if_true] at h
      cases pre with
      | nil => simp at h
      | cons y pre => simp at h
    | false =>
      simp only [senderLoop, Bool.false_eq_true, if_false] at h
      obtain ⟨p1, hp1, h1⟩ := cons_split (by simp) h
      cases p1 with
      | nil => exact ⟨[], by rw [hp1]; rfl⟩
      | cons y p1 =>
        simp only [List.cons_append, List.cons.injEq] at h1
        obtain ⟨p3, hp3, h3⟩ := cons_split (by simp) h1.2
        obtain ⟨q, hq⟩ := ih p3 r post h3
        exact ⟨Action.loadFlag false :: y :: Action.sleep periodMs :: q, by
          rw [hp1, hp3, hq]; rfl⟩

theorem readLoop_mem (P : Platform) (pfds : Nat → pollfd) (rd : Nat → Int × Nat)
    (is : List Nat) : ∀ a ∈ (readLoop P pfds rd is).1,
      (∀ b, a ≠ Action.loadFlag b) ∧ (∀ t r, a ≠ Action.poll t r) := by
  induction is with
  | nil => simp [readLoop]
  | cons i is ih =>
    simp only [readLoop]
    split_ifs
    · simp
    · simpa using ih
    · exact ih

theorem pollLoop_after_true (P : Platform) (its : List PollIn) :
    ∀ (pfds : Nat → pollfd) pre post,
      (pollLoop P pfds its).1 = pre ++ Action.loadFlag true :: post → post = [] := by
  induction its with
  | nil => intro pfds pre post h; simp [pollLoop] at h
  | cons it rest ih =>
    intro pfds pre post h
    simp only [pollLoop] at h
    split_ifs at h with c1 c2 c3 <;> dsimp only at h
    · cases pre with
      | nil => simpa using h.symm
      | cons y pre => simp at h
    · have : Action.loadFlag true ∈ [Action.loadFlag false, Action.log Msg.aboutToPoll,
          Action.poll 500 it.ready, Action.log Msg.pollError, Action.exit 1] := by
        rw [h]; simp
      simp at this
    · obtain ⟨p1, _, h1⟩ := cons_split (by simp) h
      obtain ⟨p2, _, h2⟩ := cons_split (by simp) h1
      obtain ⟨p3, _, h3⟩ := cons_split (by simp) h2
      have hm : Action.loadFlag true ∈ (readLoop P
          (fun i => { pfds i with revents := it.revents i }) it.rd (List.range nfds)).1 := by
        rw [h3]; simp
      exact absurd rfl ((readLoop_mem _ _ _ _ _ hm).1 true)
    · obtain ⟨p1, _, h1⟩ := cons_split (by simp) h
      obtain ⟨p2, _, h2⟩ := cons_split (by simp) h1
      obtain ⟨p3, _, h3⟩ := cons_split (by simp) h2
      obtain ⟨p4, _, h4⟩ := append_split_right
        (fun hm => absurd rfl ((readLoop_mem _ _ _ _ _ hm).1 true)) h3
      exact ih _ p4 post h4

theorem pollLoop_poll_guarded (P : Platform) (its : List PollIn) :
    ∀ (pfds : Nat → pollfd) pre t r post,
      (pollLoop P pfds its).1 = pre ++ Action.poll t r :: post →
      ∃ pre', pre = pre' ++ [Action.loadFlag false, Action.log Msg.aboutToPoll] := by
  have key : ∀ (l pre post : List Action) (t : Nat) (r r0 : Int),
      Action.loadFlag false :: Action.log Msg.aboutToPoll :: Action.poll 500 r0 :: l
        = pre ++ Action.poll t r :: post →
      pre = [Action.loadFlag false, Action.log Msg.aboutToPoll] ∨
      ∃ p3, pre = Action.loadFlag false :: Action.log Msg.aboutToPoll :: Action.poll 500 r0 :: p3
        ∧ l = p3 ++ Action.poll t r :: post := by
    intro l pre post t r r0 h
    obtain ⟨p1, hp1, h1⟩ := cons_split (by simp) h
    obtain ⟨p2, hp2, h2⟩ := cons_split (by simp) h1
    cases p2 with
    | nil => left; rw [hp1, hp2]
    | cons y p3 =>
      simp only [List.cons_append, List.cons.injEq] at h2
      right
      exact ⟨p3, by rw [hp1, hp2, h2.1], h2.2⟩
  induction its with
  | nil => intro pfds pre t r post h; simp [pollLoop] at h
  | cons it rest ih =>
    intro pfds pre t r post h
    simp only [pollLoop] at h
    split_ifs at h with c1 c2 c3 <;> dsimp only at h
    · cases pre with
      | nil => simp at h
      | cons y pre => simp at h
    · rcases key _ pre post t r _ h with hp | ⟨p3, _, h3⟩
      · exact ⟨[], by rw [hp]; rfl⟩
      · have : Action.poll t r ∈ [Action.log Msg.pollError, Action.exit 1] := by
          rw [h3]; simp
        simp at this
    · rcases key _ pre post t r _ h with hp | ⟨p3, _, h3⟩
      · exact ⟨[], by rw [hp]; rfl⟩
      · have hm : Action.poll t r ∈ (readLoop P
            (fun i => { pfds i with revents := it.revents i }) it.rd (List.range nfds)).1 := by
          rw [h3]; simp
        exact absurd rfl ((readLoop_mem _ _ _ _ _ hm).2 t r)
    · rcases key _ pre post t r _ h with hp | ⟨p3, hp3, h3⟩
      · exact ⟨[], by rw [hp]; rfl⟩
      · obtain ⟨p4, hp4, h4⟩ := append_split_right
          (fun hm => absurd rfl ((readLoop_mem _ _ _ _ _ hm).2 t r)) h3
        obtain ⟨q, hq⟩ := ih _ p4 t r post h4
        exact ⟨Action.loadFlag false :: Action.log Msg.aboutToPoll :: Action.poll 500 it.ready ::
          ((readLoop P (fun i => { pfds i with revents := it.revents i }) it.rd
            (List.range nfds)).1 ++ q), by
          rw [hp3, hp4, hq]; simp⟩

/-- The trace of `main` is the set-up alone when the set-up exits, and otherwise the set-up,
the start of the senders, the event loop and a rest that is empty or the tear-down. -/
theorem main_shape (P : Platform) (m : MainIn) :
    (main P m).1 = (initializeSignalHandler P m.setup).1 ∨
    ∃ rest, (main P m).1 = ((initializeSignalHandler P m.setup).1 ++ startActions)
        ++ ((pollLoop P (pfdsInit P) m.iters).1 ++ rest) ∧
      ∀ a ∈ rest, a.isTeardown = true ∨ a = Action.logKill m.killRet := by
  rw [main_eq]
  split
  · left; rfl
  · rename_i h _
    right
    split
    · exact ⟨[], by simp, by simp⟩
    · exact ⟨[], by simp, by simp⟩
    · exact ⟨teardown P h m.killRet, by simp, teardown_isTeardown P h m.killRet⟩

/-- An occurrence in the trace of `main` of an action that only the event loop performs lies
in the trace of the event loop. -/
theorem main_split (P : Platform) (m : MainIn) (x : Action) (hi : x.isInit = false)
    (hs : x ∉ startActions) (ht : x.isTeardown = false) (hk : x ≠ Action.logKill m.killRet)
    (pre post : List Action) (h : (main P m).1 = pre ++ x :: post) :
    ∃ pre' post' rest, pre = ((initializeSignalHandler P m.setup).1 ++ startActions) ++ pre' ∧
      post = post' ++ rest ∧ (pollLoop P (pfdsInit P) m.iters).1 = pre' ++ x :: post' ∧
      ∀ a ∈ rest, a.isTeardown = true ∨ a = Action.logKill m.killRet := by
  have hx0 : x ∉ (initializeSignalHandler P m.setup).1 := by
    intro hm
    have := initializeSignalHandler_isInit P m.setup x hm
    rw [hi] at this
    exact absurd this (by simp)
  rcases main_shape P m with h0 | ⟨rest, h1, hrest⟩
  · rw [h0] at h
    exact absurd (by rw [h]; simp) hx0
  · rw [h1] at h
    have hxA : x ∉ (initializeSignalHandler P m.setup).1 ++ startActions := by
      intro hm
      rcases List.mem_append.1 hm with hm | hm
      · exact hx0 hm
      · exact hs hm
    have hxR : x ∉ rest := by
      intro hm
      rcases hrest x hm with h | h
      · rw [ht] at h
        exact absurd h (by simp)
      · exact hk h
    obtain ⟨pre', hp, h2⟩ := append_split_right hxA h
    obtain ⟨post', hq, h3⟩ := append_split_left hxR h2
    exact ⟨pre', post', rest, hp, hq, h3, hrest⟩

/-- C5: each of the three flag-guarded loops reads `exitRequested` first in every pass.  In a
sender, nothing at all follows a read of the flag that saw `true` (so no write does), and
every write comes right after a read that saw `false`.  In `main`, no `poll` and no `read`
follows a read of the flag that saw `true`, and every `poll` comes right after a read that
saw `false` and the line "About to poll...". -/
theorem C5_cooperative_stop (P : Platform) (o : List (Bool × Int)) (m : MainIn) :
    (∀ pre post, (sender1 o).1 = pre ++ Action.loadFlag true :: post → post = []) ∧
    (∀ pre post, (sender2 o).1 = pre ++ Action.loadFlag true :: post → post = []) ∧
    (∀ pre r post, (sender1 o).1 = pre ++ Action.write eventFd1 1 r :: post →
      ∃ pre', pre = pre' ++ [Action.loadFlag false]) ∧
    (∀ pre r post, (sender2 o).1 = pre ++ Action.write eventFd2 2 r :: post →
      ∃ pre', pre = pre' ++ [Action.loadFlag false]) ∧
    (∀ a ∈ (sender1 o).1 ++ (sender2 o).1, a.isWrite = true →
      ∃ r, a = Action.write eventFd1 1 r ∨ a = Action.write eventFd2 2 r) ∧
    (∀ pre post, (main P m).1 = pre ++ Action.loadFlag true :: post →
      ∀ a ∈ post, a.isPollOrRead = false) ∧
    (∀ pre t r post, (main P m).1 = pre ++ Action.poll t r :: post →
      ∃ pre', pre = pre' ++ [Action.loadFlag false, Action.log Msg.aboutToPoll]) := by
  refine ⟨senderLoop_after_true _ _ _ o, senderLoop_after_true _ _ _ o,
    senderLoop_write_guarded _ _ _ o, senderLoop_write_guarded _ _ _ o, ?_, ?_, ?_⟩
  · intro a ha hw
    rcases List.mem_append.1 ha with ha | ha
    · rcases senderLoop_mem _ _ _ _ _ ha with ⟨_, h⟩ | ⟨r, h⟩ | h
      · subst h; simp [Action.isWrite] at hw
      · exact ⟨r, Or.inl h⟩
      · subst h; simp [Action.isWrite] at hw
    · rcases senderLoop_mem _ _ _ _ _ ha with ⟨_, h⟩ | ⟨r, h⟩ | h
      · subst h; simp [Action.isWrite] at hw
      · exact ⟨r, Or.inr h⟩
      · subst h; simp [Action.isWrite] at hw
  · intro pre post h
    obtain ⟨pre', post', rest, _, hq, hl, hrest⟩ := main_split P m (Action.loadFlag true)
      rfl (by simp [startActions]) rfl (by simp) pre post h
    have hp := pollLoop_after_true P m.iters _ pre' post' hl
    subst hp
    intro a ha
    rw [hq] at ha
    simp only [List.nil_append] at ha
    rcases hrest a ha with h | h
    · revert h
      cases a <;> simp [Action.isTeardown, Action.isPollOrRead]
    · subst h; rfl
  · intro pre t r post h
    obtain ⟨pre', post', rest, hp, _, hl, _⟩ := main_split P m (Action.poll t r)
      rfl (by simp [startActions]) rfl (by simp) pre post h
    obtain ⟨q, hq⟩ := pollLoop_poll_guarded P m.iters _ pre' t r post' hl
    exact ⟨((initializeSignalHandler P m.setup).1 ++ startActions) ++ q, by
      rw [hp, hq]; simp⟩

/-! ### Failures in the event loop -/

theorem pollLoop_congr (P : Platform) (its : List PollIn) (pfds pfds' : Nat → pollfd)
    (h : ∀ i, (pfds' i).fd = (pfds i).fd ∧ (pfds' i).events = (pfds i).events) :
    pollLoop P pfds' its = pollLoop P pfds its := by
  cases its with
  | nil => rfl
  | cons it rest =>
    have e : (fun i => ({ pfds' i with revents := it.revents i } : pollfd))
        = (fun i => ({ pfds i with revents := it.revents i } : pollfd)) := by
      funext i
      simp [(h i).1, (h i).2]
    simp only [pollLoop, e]

theorem pollLoop_append (P : Platform) (pre rest : List PollIn) :
    ∀ (pfds : Nat → pollfd), (pollLoop P pfds pre).2 = LoopEnd.running →
      pollLoop P pfds (pre ++ rest)
        = ((pollLoop P pfds pre).1 ++ (pollLoop P pfds rest).1, (pollLoop P pfds rest).2) := by
  induction pre with
  | nil => intro pfds _; simp [pollLoop]
  | cons it pre ih =>
    intro pfds h
    simp only [pollLoop] at h
    rw [List.cons_append]
    simp only [pollLoop]
    split_ifs at h ⊢ with c1 c2 c3
    dsimp only at h ⊢
    rw [ih _ h, pollLoop_congr P rest pfds
      (fun i => { pfds i with revents := it.revents i }) (fun i => ⟨rfl, rfl⟩)]
    simp

theorem pollLoop_poll_fails (P : Platform) (pfds : Nat → pollfd) (it : PollIn)
    (rest : List PollIn) (hflag : it.exitRequested = false) (hready : it.ready = -1) :
    pollLoop P pfds (it :: rest)
      = ([Action.loadFlag false, Action.log Msg.aboutToPoll, Action.poll 500 (-1),
          Action.log Msg.pollError, Action.exit 1], LoopEnd.exited 1) := by
  simp [pollLoop, hflag, hready]

theorem pollLoop_read_fails (P : Platform) (it : PollIn) (rest : List PollIn)
    (hflag : it.exitRequested = false) (hready : it.ready ≠ -1) (i : Nat) (hi : i < nfds)
    (hin : it.revents i &&& P.POLLIN ≠ 0) (hrd : (it.rd i).1 = -1)
    (hbefore : ∀ j, j < i → it.revents j &&& P.POLLIN ≠ 0 → (it.rd j).1 ≠ -1) :
    pollLoop P (pfdsInit P) (it :: rest)
      = (Action.loadFlag false :: Action.log Msg.aboutToPoll :: Action.poll 500 it.ready ::
          ((readLoop P (pfdsPolled P it.revents) it.rd (List.range i)).1
            ++ [Action.read i (-1), Action.log Msg.readError, Action.exit 1]),
         LoopEnd.exited 1) ∧
    ∀ j ∈ readsOf (readLoop P (pfdsPolled P it.revents) it.rd (List.range i)).1, j < i := by
  simp only [nfds] at hi
  interval_cases i
  · simp [pollLoop, readLoop, range_nfds, hflag, hready, hin, hrd, pfdsInit, eventFd1, readsOf]
  · by_cases c0 : it.revents 0 &&& P.POLLIN = 0
    · simp [pollLoop, readLoop, range_nfds, hflag, hready, hin, hrd, pfdsInit, eventFd2,
        readsOf, c0, List.range_succ, pfdsPolled]
    · have f0 := hbefore 0 (by decide) c0
      simp [pollLoop, readLoop, range_nfds, hflag, hready, hin, hrd, pfdsInit, eventFd1,
        eventFd2, readsOf, c0, f0, List.range_succ, pfdsPolled]

/-- C8: in any pass of the event loop (the set-up having succeeded and the passes before it
having run to their end), if `poll` returns -1 the run of `main` ends with the actions
read flag, "About to poll...", `poll`, "Poll error!", `exit(1)`: no source is read in that
pass; and if the read on a ready source `i` returns -1 (the reads before it in the pass having
succeeded), the run ends with that read, "Read error!", `exit(1)`, the only other reads of the
pass being on sources before `i`.  In both cases the process exits with status 1 and nothing
follows: no later source, no other poll, no tear-down, no `return 0`. -/
theorem C8_event_loop_failures_are_fatal (P : Platform) (m : MainIn) (pre : List PollIn)
    (it : PollIn) (rest : List PollIn) (hsetup : ¬ m.setup.fails)
    (hiters : m.iters = pre ++ it :: rest)
    (hpre : (pollLoop P (pfdsInit P) pre).2 = LoopEnd.running)
    (hflag : it.exitRequested = false) :
    (it.ready = -1 →
      main P m
        = ((initializeSignalHandler P m.setup).1 ++ startActions
            ++ ((pollLoop P (pfdsInit P) pre).1
              ++ [Action.loadFlag false, Action.log Msg.aboutToPoll, Action.poll 500 (-1),
                  Action.log Msg.pollError, Action.exit 1]),
           Outcome.exited 1)) ∧
    (it.ready ≠ -1 → ∀ i, i < nfds → it.revents i &&& P.POLLIN ≠ 0 → (it.rd i).1 = -1 →
      (∀ j, j < i → it.revents j &&& P.POLLIN ≠ 0 → (it.rd j).1 ≠ -1) →
      main P m
        = ((initializeSignalHandler P m.setup).1 ++ startActions
            ++ ((pollLoop P (pfdsInit P) pre).1
              ++ Action.loadFlag false :: Action.log Msg.aboutToPoll ::
                Action.poll 500 it.ready ::
                ((readLoop P (pfdsPolled P it.revents) it.rd (List.range i)).1
                  ++ [Action.read i (-1), Action.log Msg.readError, Action.exit 1])),
           Outcome.exited 1) ∧
      ∀ j ∈ readsOf (readLoop P (pfdsPolled P it.revents) it.rd (List.range i)).1, j < i) := by
  have hs : (buildMask P m.setup).success = true := by
    rw [buildMask_success]
    simp only [SetupIn.fails, not_or, not_not] at hsetup
    exact hsetup
  have hh : (initializeSignalHandler P m.setup).2
      = some { thread := Thread.signalHandler, joinable := true } := by
    simp [initializeSignalHandler, hs]
  have hloop := pollLoop_append P pre (it :: rest) (pfdsInit P) hpre
  constructor
  · intro hready
    rw [pollLoop_poll_fails P _ it rest hflag hready] at hloop
    rw [main_eq, hh, hiters]
    simp only [hloop]
  · intro hready i hi hin hrd hbefore
    obtain ⟨h1, h2⟩ := pollLoop_read_fails P it rest hflag hready i hi hin hrd hbefore
    rw [h1] at hloop
    refine ⟨?_, h2⟩
    rw [main_eq, hh, hiters]
    simp only [hloop]

/-- C8 at a concrete run on Linux: the second pass has both sources ready and its read on
source 0 returns -1. -/
theorem C8_event_loop_failure_witness :
    (main linux mainReadFails).2 = Outcome.exited 1 ∧
    readsOf (main linux mainReadFails).1 = [0, 1, 0] := by
  have h := (C8_event_loop_failures_are_fatal linux mainReadFails [passBothReady]
    passReadFails [passBothReady] (by simp [SetupIn.fails, mainReadFails, setupOk]) rfl
    (by simp [passBothReady, pollLoop, readLoop, range_nfds, linux, pfdsInit]) rfl).2
    (by decide) 0 (by decide) (by simp [passReadFails, linux]) rfl
    (by intro j hj; omega)
  refine ⟨by rw [h.1], ?_⟩
  rw [h.1]
  simp [initializeSignalHandler, buildMask, SetupState.andCall, mainReadFails, setupOk,
    startActions, passBothReady, passReadFails, pollLoop, readLoop, range_nfds, linux, pfdsInit,
    readsOf, eventFd1, eventFd2]

/-! ### The payload read from an event source -/

/-- C4 does not hold of the code: when `sender1` writes twice before the event loop polls,
the loop reads 2 from source 0 and logs "Received from Sender 2"; likewise two writes of
`sender2` make it read 4 from source 1. -/
theorem C4_accumulated_writes_are_read_as_one_payload :
    runSchedule linux countersInit [Sched.sender1Pass, Sched.sender1Pass, Sched.loopPass]
      = [Action.loadFlag false, Action.write eventFd1 1 8, Action.sleep 200,
         Action.loadFlag false, Action.write eventFd1 1 8, Action.sleep 200,
         Action.loadFlag false, Action.log Msg.aboutToPoll, Action.poll 500 1,
         Action.read eventFd1 8, Action.logReceived 2] ∧
    receivedPayloads (runSchedule linux countersInit
      [Sched.sender2Pass, Sched.sender2Pass, Sched.loopPass]) = [4] ∧
    receivedPayloads (runSchedule linux countersInit
      [Sched.sender1Pass, Sched.loopPass, Sched.sender2Pass, Sched.loopPass]) = [1, 2] := by
  simp [runSchedule, countersInit, sender1, sender2, senderLoop, eventfdWrite, eventfdMax,
    pollLoop, readLoop, range_nfds, kernelPollIn, eventfdRevents, eventfdRead, Counters.get,
    countersAfterLoopPass, pfdsInit, linux, eventFd1, eventFd2, receivedPayloads]

end EventfdPoll
